import Mathlib

/-!
# FTAtoolkit — verification of the route-normalization / playback spec

Shallow embedding of the school-routing tool (`src/fta_toolkit/src/App.js`,
two component variants concatenated in that file, and
`src/routes-api/server.js`), together with the segment-playback controller
that the specification describes (§4.3) but whose implementation is not
among the files under `src/`.

Conventions:
* JavaScript numbers are modelled as `ℚ` (no floating point behaviour is
  exercised by the claims at hand; all concrete inputs are exact decimals).
* React `useState` setters are modelled by explicit record updates on a
  `UIState` value, applied in the textual order of the source.
* Fallible paths return `Except`/`Option`; a JS `alert` + early `return`,
  or an error thrown and caught by the surrounding `try`/`catch`, becomes
  an error value.
-/

namespace FTA

/-! ## Data model: segment playback (spec §3, §4.3)

Modelled from the spec: the `SegmentPlaybackController` (`reset`/`advance`/
`rewind` over a cursor and per-segment `active` flags) is described in
spec §4.3 and §8, but its implementation is not among the files under
`src/` (neither App.js variant nor server.js contains it). The definitions
below follow the spec's words exactly. -/

/-- A normalized route segment (spec §3): a decoded path, a distance and the
playback `active` flag. The display color is irrelevant to the playback
claims and is omitted from the playback model. -/
structure Segment where
  path : List (ℚ × ℚ)
  distanceMeters : ℚ
  active : Bool
deriving Repr, DecidableEq

/-- Playback state (spec §3): ordered segments and the reveal cursor. -/
structure PlaybackState where
  segments : List Segment
  cursor : ℕ
deriving Repr, DecidableEq

/-- Replace the element at index `i` by `f` of it (no-op when out of range). -/
def modifyAt (l : List Segment) (i : ℕ) (f : Segment → Segment) : List Segment :=
  match l, i with
  | [], _ => []
  | x :: xs, 0 => f x :: xs
  | x :: xs, n + 1 => x :: modifyAt xs n f

def setActive (b : Bool) (s : Segment) : Segment := { s with active := b }

/-- Modelled from the spec: `reset(segments)` replaces the state, sets
`cursor = 0`, all `active = false`; always succeeds (total function). -/
def reset (segs : List Segment) : PlaybackState :=
  ⟨segs.map (setActive false), 0⟩

/-- Modelled from the spec: `advance()` — if `cursor < N`, marks
`segments[cursor].active = true` and increments `cursor`; if `cursor == N`,
no-op (saturating, not an error). -/
def advance (st : PlaybackState) : PlaybackState :=
  if st.cursor < st.segments.length then
    ⟨modifyAt st.segments st.cursor (setActive true), st.cursor + 1⟩
  else st

/-- Modelled from the spec: `rewind()` — if `cursor > 0`, decrements
`cursor` and marks `segments[cursor].active = false`; if `cursor == 0`,
no-op. -/
def rewind (st : PlaybackState) : PlaybackState :=
  match st.cursor with
  | 0 => st
  | c + 1 => ⟨modifyAt st.segments c (setActive false), c⟩

/-- One playback operation. -/
inductive PlayOp where
  | adv
  | rew
deriving Repr, DecidableEq

def applyOp (st : PlaybackState) : PlayOp → PlaybackState
  | .adv => advance st
  | .rew => rewind st

/-- Apply a sequence of playback operations, left to right. -/
def applyOps (st : PlaybackState) : List PlayOp → PlaybackState
  | [] => st
  | op :: ops => applyOps (applyOp st op) ops

/-- Iterated `advance`. -/
def advanceN (st : PlaybackState) : ℕ → PlaybackState
  | 0 => st
  | n + 1 => advanceN (advance st) n

/-- The playback invariant (spec §4.3): the cursor stays in `[0, N]` and a
segment is active exactly when its index is below the cursor. -/
def Inv (st : PlaybackState) : Prop :=
  st.cursor ≤ st.segments.length ∧
    ∀ i (h : i < st.segments.length),
      (st.segments.get ⟨i, h⟩).active = true ↔ i < st.cursor

/-! ## Polyline codec

The App.js Google variant decodes `route.polyline.encodedPolyline` with the
npm `polyline` library (App.js line 158). The library implements the
standard provider polyline algorithm the spec describes in §4.2: scale
coordinates by `1e5` and round, take deltas from the previous point,
zigzag-encode each delta, emit it in 5-bit chunks (little-endian, `0x20`
continuation flag, `+63` into printable ASCII). The encoder below is
modelled from the spec's description of that standard algorithm (the source
only calls `decode`); the decoder mirrors the library's decode loop. -/

/-- Zigzag of a delta: `2v` for `v ≥ 0`, `-2v - 1` for `v < 0` (the
left-shift/invert step of the standard algorithm). -/
def zigzag (v : ℤ) : ℕ := if 0 ≤ v then (2 * v).toNat else (-(2 * v) - 1).toNat

/-- Inverse of `zigzag`, as the decode loop computes it. -/
def unzigzag (z : ℕ) : ℤ := if z % 2 = 0 then (z / 2 : ℤ) else -(((z : ℤ) + 1) / 2)

/-- Emit the 5-bit chunks of `z`, least significant first; every chunk but
the last carries the `0x20` continuation flag, and every chunk is shifted
by 63 into printable ASCII. The first argument is recursion fuel (any value
`≥ z` gives the true chunk list; `encodeNatChunks` passes `z` itself). -/
def encodeNatChunksAux : ℕ → ℕ → List ℕ
  | 0, z => [z + 63]
  | fuel + 1, z =>
    if z < 32 then [z + 63]
    else (z % 32 + 95) :: encodeNatChunksAux fuel (z / 32)

def encodeNatChunks (z : ℕ) : List ℕ := encodeNatChunksAux z z

/-- Read one chunked value from the head of a code-unit list; returns the
value and the remaining code units. -/
def decodeNatChunks : List ℕ → Option (ℕ × List ℕ)
  | [] => none
  | c :: rest =>
    if c < 95 then some (c - 63, rest)
    else
      match decodeNatChunks rest with
      | some (z, rest2) => some ((c - 95) + 32 * z, rest2)
      | none => none

/-- Encode a list of E5-scaled integer points as deltas from `prev`,
latitude first, then longitude, exactly as the standard algorithm chains
them. -/
def encodePairsFrom : ℤ × ℤ → List (ℤ × ℤ) → List ℕ
  | _, [] => []
  | (plat, plng), (lat, lng) :: rest =>
    encodeNatChunks (zigzag (lat - plat)) ++ encodeNatChunks (zigzag (lng - plng)) ++
      encodePairsFrom (lat, lng) rest

def encodeE5 (pts : List (ℤ × ℤ)) : List ℕ := encodePairsFrom (0, 0) pts

/-- Decode E5-scaled integer points from a code-unit list; the first
argument is recursion fuel (the list length suffices, since every value
consumes at least one code unit). `none` models an input that is not a
well-formed encoding (a dangling continuation chunk — the JS library does
not signal this case cleanly and produces NaN coordinates there; no
well-formed encoding reaches it). -/
def decodePairsFrom : ℕ → ℤ × ℤ → List ℕ → Option (List (ℤ × ℤ))
  | _, _, [] => some []
  | 0, _, _ :: _ => none
  | fuel + 1, (plat, plng), c :: cs =>
    match decodeNatChunks (c :: cs) with
    | none => none
    | some (zlat, cs1) =>
      match decodeNatChunks cs1 with
      | none => none
      | some (zlng, cs2) =>
        match decodePairsFrom fuel (plat + unzigzag zlat, plng + unzigzag zlng) cs2 with
        | some pts => some ((plat + unzigzag zlat, plng + unzigzag zlng) :: pts)
        | none => none

def decodeE5 (cs : List ℕ) : Option (List (ℤ × ℤ)) := decodePairsFrom cs.length (0, 0) cs

def polylineEncode (pts : List (ℤ × ℤ)) : String :=
  String.mk ((encodeE5 pts).map Char.ofNat)

def polylineDecode (s : String) : Option (List (ℤ × ℤ)) :=
  decodeE5 (s.toList.map Char.toNat)

/-- Scale a coordinate to the E5 grid, rounding (`Math.round(x * 1e5)`). -/
def toE5 (q : ℚ) : ℤ := round (q * 100000)

def fromE5 (z : ℤ) : ℚ := (z : ℚ) / 100000

/-- Encode a coordinate list (degrees) with the standard polyline
algorithm. -/
def encodeCoordinates (pts : List (ℚ × ℚ)) : String :=
  polylineEncode (pts.map fun p => (toE5 p.1, toE5 p.2))

/-- Decode an encoded polyline to coordinates in degrees, as
`polyline.decode` returns them (`lat`, `lng` pairs). -/
def decodeCoordinates (s : String) : Option (List (ℚ × ℚ)) :=
  (polylineDecode s).map (List.map fun p => (fromE5 p.1, fromE5 p.2))

/-! ## App model: selection state and route calculation (App.js)

`App.js` holds two variants of the same component: the Google
`computeRoutes` variant (lines 1–357) and the openrouteservice variant
(lines 358–592). Both share `toggleSchoolSelection`/`selectHomeLocation`
verbatim. -/

/-- A school record from the static dataset (`{name, lat, lng}`). -/
structure School where
  name : String
  lat : ℚ
  lng : ℚ
deriving Repr, DecidableEq

/-- App.js lines 39–45 (identical in both variants): if a school of the
same name is already selected, remove every entry of that name, else append
the school. -/
def toggleSchoolSelection (school : School) (prevSelected : List School) : List School :=
  if prevSelected.any (fun s => s.name == school.name) then
    prevSelected.filter (fun s => s.name != school.name)
  else prevSelected ++ [school]

/-- App.js lines 47–55 (identical in both variants): the selection-list
effect of picking a home — append the school unless a school of the same
name is already selected. (The `homeLocation` state itself is set
unconditionally and is passed separately below.) -/
def selectHomeLocation (school : School) (prevSelected : List School) : List School :=
  if prevSelected.any (fun s => s.name == school.name) then prevSelected
  else prevSelected ++ [school]

/-- One selection-layer operation. -/
inductive SelOp where
  | toggle (s : School)
  | home (s : School)
deriving Repr, DecidableEq

/-- Apply a sequence of selection operations to the `selectedSchools` list,
left to right. -/
def applySelOps : List SelOp → List School → List School
  | [], sel => sel
  | .toggle s :: ops, sel => applySelOps ops (toggleSchoolSelection s sel)
  | .home s :: ops, sel => applySelOps ops (selectHomeLocation s sel)

/-- JS truthiness of `school.lat && school.lng` (App.js line 77): a numeric
coordinate passes exactly when both components are nonzero (`0` is falsy in
JS). -/
def validCoords (s : School) : Bool := decide (s.lat ≠ 0) && decide (s.lng ≠ 0)

structure LatLng where
  latitude : ℚ
  longitude : ℚ
deriving Repr, DecidableEq

/-- The Routes API request body the Google variant constructs (App.js
lines 99–123): origin, destination and the intermediate waypoints
(travelMode and routingPreference are constants and carry no information). -/
structure RouteRequest where
  origin : LatLng
  destination : LatLng
  intermediates : List LatLng
deriving Repr, DecidableEq

inductive BuildError where
  | missingHome
  | insufficientStops
  | notEnoughValidStops
deriving Repr, DecidableEq

def schoolLatLng (s : School) : LatLng := ⟨s.lat, s.lng⟩

/-- Request construction of the Google variant's `calculateRoute` (App.js
lines 64–123): reject a null home (`missingHome`, line 64), then fewer than
two selected schools (`insufficientStops`, line 69 — the check counts the
whole `selectedSchools` list); map every selected school with truthy
coordinates to a waypoint in list order (lines 75–92, no filtering against
the home and no deduplication), reject fewer than two surviving waypoints
(line 94); origin and destination are both the home's coordinate
(lines 99–114). -/
def buildRequest : Option School → List School → Except BuildError RouteRequest
  | none, _ => .error .missingHome
  | some home, selectedSchools =>
    if selectedSchools.length < 2 then .error .insufficientStops
    else
      let waypoints := (selectedSchools.filter validCoords).map schoolLatLng
      if waypoints.length < 2 then .error .notEnoughValidStops
      else .ok ⟨schoolLatLng home, schoolLatLng home, waypoints⟩

/-- One step of a Google Routes API leg: the response (field mask
`routes.legs.steps`) carries each step's own encoded polyline alongside its
instruction text; the source reads only `instructions` (App.js line 166). -/
structure GStep where
  instructions : String
  stepPolyline : String
deriving Repr, DecidableEq

structure GLeg where
  steps : List GStep
deriving Repr, DecidableEq

/-- One route of a Google Routes API response as the source consumes it: a
route-level encoded polyline (`route.polyline.encodedPolyline`), the total
`distanceMeters`, and the legs with their steps. -/
structure GRoute where
  encodedPolyline : String
  distanceMeters : ℚ
  legs : List GLeg
deriving Repr, DecidableEq

/-- The proxy's route check (server.js lines 69–71): respond with the error
`"No routes found"` when the provider returned no routes, else pass the
response through. -/
def serverRouteCheck (routes : List GRoute) : Except String (List GRoute) :=
  if routes.isEmpty then .error "No routes found" else .ok routes

inductive CalcError where
  | missingHome
  | insufficientStops
  | notEnoughValidStops
  | requestFailed
  | apiError (msg : String)
  | emptyRoutes
  | malformedPolyline
  | emptyGeometry
deriving Repr, DecidableEq

/-- What the Google variant derives from a successful response (App.js
lines 153–190): the single decoded route-level path, the total distance
converted to kilometres (line 161), and the flattened step instructions
(lines 165–166). -/
structure NormalizedRoute where
  path : List (ℚ × ℚ)
  totalDistanceKm : ℚ
  directions : List String
deriving Repr, DecidableEq

/-- Value-level view of the Google variant's response handling (App.js
lines 153–177): `routes[0]` of an empty list is `undefined` and the ensuing
`TypeError` is caught (`emptyRoutes`); the route-level polyline is decoded
(line 158); a decoded path with zero points throws
`"No valid route points found."` (lines 175–177, `emptyGeometry`);
otherwise the single path, `distanceMeters / 1000` and the instructions of
all legs' steps flattened in order are produced. The per-step polylines are
never decoded. -/
def normalizeResponse : List GRoute → Except CalcError NormalizedRoute
  | [] => .error .emptyRoutes
  | route :: _ =>
    match decodeCoordinates route.encodedPolyline with
    | none => .error .malformedPolyline
    | some latLngs =>
      if latLngs.isEmpty then .error .emptyGeometry
      else
        .ok ⟨latLngs, route.distanceMeters / 1000,
          (route.legs.flatMap GLeg.steps).map GStep.instructions⟩

/-- One feature of an openrouteservice GeoJSON response as the second
variant consumes it (App.js lines 460–477): the flat
`geometry.coordinates` list (`[lng, lat]` pairs), the route total
`properties.summary.distance` (present in the response; never read by the
source), and the per-leg `properties.segments[i].distance` list. -/
structure ORSFeature where
  coordinates : List (ℚ × ℚ)
  summaryDistance : ℚ
  segmentDistances : List ℚ
deriving Repr, DecidableEq

structure ORSResult where
  latLngs : List (ℚ × ℚ)
  totalDistanceKm : ℚ
deriving Repr, DecidableEq

/-- Value-level view of the openrouteservice variant's `fetchRoute`
(App.js lines 460–478): `features[0]` of an empty list, or `segments[0]`
of an empty segment list, is `undefined` and the ensuing `TypeError` is
caught (`none`); otherwise the flat coordinate list is flipped from
`[lng, lat]` to `[lat, lng]` (line 461) and the displayed total is
`segments[0].distance / 1000` (line 477). -/
def fetchRoute : List ORSFeature → Option ORSResult
  | [] => none
  | f :: _ =>
    match f.segmentDistances with
    | [] => none
    | d :: _ => some ⟨f.coordinates.map (fun p => (p.2, p.1)), d / 1000⟩

/-- The Google variant's component state that `calculateRoute` touches:
`totalDistance` (km), `directions`, and the route control's waypoints
(`none` when no route control is on the map). -/
structure UIState where
  totalDistance : Option ℚ
  directions : List String
  routeWaypoints : Option (List (ℚ × ℚ))
deriving Repr, DecidableEq

/-- Outcome of the `fetch` to the Routes API: HTTP failure
(`!response.ok`, App.js line 139), an API-level `data.error` (line 147),
or a parsed routes list. -/
inductive FetchOutcome where
  | httpError
  | apiError (msg : String)
  | success (routes : List GRoute)
deriving Repr, DecidableEq

/-- The full effect of the Google variant's `calculateRoute` (App.js
lines 57–195) on the component state, with the `useState` setters applied
in textual order: the guard alerts return before any state change
(lines 64–97), as do an HTTP error, an API error and the `TypeError` on
`routes[0]` of an empty list (caught at line 191); on the parse path
`setTotalDistance` (line 162) and `setDirections` (line 166) run and the
existing route control is removed (lines 169–172) BEFORE the decoded path
is checked for emptiness (lines 175–177), so the `emptyGeometry` error
leaves those changes behind; on success the new route control is added
(lines 180–190). -/
def calculateRoute (st : UIState) :
    Option School → List School → FetchOutcome → UIState × Option CalcError
  | none, _, _ => (st, some .missingHome)
  | some _home, selectedSchools, out =>
    if selectedSchools.length < 2 then (st, some .insufficientStops)
    else
      let waypoints := (selectedSchools.filter validCoords).map schoolLatLng
      if waypoints.length < 2 then (st, some .notEnoughValidStops)
      else
        match out with
        | .httpError => (st, some .requestFailed)
        | .apiError m => (st, some (.apiError m))
        | .success routes =>
          match routes with
          | [] => (st, some .emptyRoutes)
          | route :: _ =>
            match decodeCoordinates route.encodedPolyline with
            | none => (st, some .malformedPolyline)
            | some latLngs =>
              let st1 : UIState :=
                { st with totalDistance := some (route.distanceMeters / 1000) }
              let st2 : UIState :=
                { st1 with
                  directions := (route.legs.flatMap GLeg.steps).map GStep.instructions }
              let st3 : UIState := { st2 with routeWaypoints := none }
              if latLngs.isEmpty then (st3, some .emptyGeometry)
              else ({ st3 with routeWaypoints := some latLngs }, none)

/-! ## Playback controller lemmas and claims C1, C2 -/

theorem modifyAt_length (l : List Segment) (i : ℕ) (f : Segment → Segment) :
    (modifyAt l i f).length = l.length := by
  induction l generalizing i with
  | nil => rfl
  | cons x xs ih =>
    cases i with
    | zero => rfl
    | succ n => simpa [modifyAt] using ih n

theorem modifyAt_get (l : List Segment) (i : ℕ) (f : Segment → Segment)
    (j : ℕ) (hj : j < (modifyAt l i f).length) (hj' : j < l.length) :
    (modifyAt l i f).get ⟨j, hj⟩ =
      if j = i then f (l.get ⟨j, hj'⟩) else l.get ⟨j, hj'⟩ := by
  induction l generalizing i j with
  | nil => exact absurd hj' (by simp)
  | cons x xs ih =>
    cases i with
    | zero =>
      cases j with
      | zero => simp [modifyAt]
      | succ m => simp [modifyAt]
    | succ n =>
      cases j with
      | zero => simp [modifyAt]
      | succ m =>
        have hm : m < (modifyAt xs n f).length := by
          simpa [modifyAt] using hj
        have hm' : m < xs.length := by simpa using hj'
        simpa [modifyAt, Nat.succ_inj] using ih n m hm hm'

theorem inv_reset (segs : List Segment) : Inv (reset segs) := by
  refine ⟨Nat.zero_le _, ?_⟩
  intro i h
  simp only [reset] at h ⊢
  rw [List.get_map]
  simp [setActive]

theorem inv_advance {st : PlaybackState} (h : Inv st) : Inv (advance st) := by
  obtain ⟨hle, hact⟩ := h
  unfold advance
  split
  · next hlt =>
    refine ⟨by simpa [modifyAt_length] using hlt, ?_⟩
    intro i hi
    have hi' : i < st.segments.length := by simpa [modifyAt_length] using hi
    rw [modifyAt_get st.segments st.cursor (setActive true) i hi hi']
    by_cases hic : i = st.cursor
    · subst hic
      simp [setActive]
    · rw [if_neg hic]
      have hiff := hact i hi'
      rw [hiff]
      show i < st.cursor ↔ i < st.cursor + 1
      omega
  · exact ⟨hle, hact⟩

theorem inv_rewind {st : PlaybackState} (h : Inv st) : Inv (rewind st) := by
  obtain ⟨hle, hact⟩ := h
  unfold rewind
  cases hc : st.cursor with
  | zero => exact ⟨hle, by simpa [hc] using hact⟩
  | succ c =>
    have hclt : c < st.segments.length := by omega
    refine ⟨by simpa [modifyAt_length] using hclt.le, ?_⟩
    intro i hi
    have hi' : i < st.segments.length := by simpa [modifyAt_length] using hi
    rw [modifyAt_get st.segments c (setActive false) i hi hi']
    by_cases hic : i = c
    · subst hic
      simp [setActive]
    · rw [if_neg hic]
      have hiff := hact i hi'
      rw [hc] at hiff
      rw [hiff]
      show i < c + 1 ↔ i < c
      omega

theorem inv_applyOp {st : PlaybackState} (h : Inv st) (op : PlayOp) :
    Inv (applyOp st op) := by
  cases op with
  | adv => exact inv_advance h
  | rew => exact inv_rewind h

theorem inv_applyOps {st : PlaybackState} (h : Inv st) (ops : List PlayOp) :
    Inv (applyOps st ops) := by
  induction ops generalizing st with
  | nil => exact h
  | cons op ops ih => exact ih (inv_applyOp h op)

/-- C1: for every sequence of `advance`/`rewind` calls after a `reset`, the
segment at index `i` is active iff `i < cursor` (and the cursor stays in
range) — after every call, since the sequence is universally quantified so
the statement covers every prefix. -/
theorem playback_invariant (segs : List Segment) (ops : List PlayOp) :
    Inv (applyOps (reset segs) ops) :=
  inv_applyOps (inv_reset segs) ops

theorem advance_segments_length {st : PlaybackState} :
    (advance st).segments.length = st.segments.length := by
  unfold advance
  split <;> simp [modifyAt_length]

theorem advance_cursor_of_lt {st : PlaybackState}
    (h : st.cursor < st.segments.length) :
    (advance st).cursor = st.cursor + 1 := by
  unfold advance
  simp [h]

theorem advanceN_full {st : PlaybackState} (hinv : Inv st) (n : ℕ)
    (hn : st.cursor + n = st.segments.length) :
    (advanceN st n).cursor = st.segments.length ∧
      (advanceN st n).segments.length = st.segments.length ∧
      Inv (advanceN st n) := by
  induction n generalizing st with
  | zero =>
    refine ⟨?_, rfl, hinv⟩
    show st.cursor = st.segments.length
    omega
  | succ m ih =>
    have hlt : st.cursor < st.segments.length := by omega
    have hinv' : Inv (advance st) := inv_advance hinv
    have hcur : (advance st).cursor = st.cursor + 1 := advance_cursor_of_lt hlt
    have hlen : (advance st).segments.length = st.segments.length :=
      advance_segments_length
    have := ih hinv' (by omega)
    simpa [advanceN, hlen] using this

/-- C2: `reset` always succeeds, sets `cursor = 0` and every segment
inactive; after `N = segs.length` calls to `advance` the cursor equals `N`
and every segment is active; a further `advance` at `cursor = N` is a
no-op (saturates rather than errors), and `rewind` at `cursor = 0` is a
no-op. -/
theorem reset_advanceN_saturates (segs : List Segment) :
    (reset segs).cursor = 0 ∧
      (∀ i (h : i < (reset segs).segments.length),
        ((reset segs).segments.get ⟨i, h⟩).active = false) ∧
      (advanceN (reset segs) segs.length).cursor = segs.length ∧
      (∀ i (h : i < (advanceN (reset segs) segs.length).segments.length),
        ((advanceN (reset segs) segs.length).segments.get ⟨i, h⟩).active = true) ∧
      advance (advanceN (reset segs) segs.length) =
        advanceN (reset segs) segs.length ∧
      rewind (reset segs) = reset segs := by
  have hlen0 : (reset segs).segments.length = segs.length := by
    simp [reset]
  obtain ⟨hcur, hlen, hinv⟩ :=
    advanceN_full (inv_reset segs) segs.length (by simp [reset])
  refine ⟨rfl, ?_, by simpa [hlen0] using hcur, ?_, ?_, ?_⟩
  · intro i h
    simp only [reset] at h ⊢
    rw [List.get_map]
    simp [setActive]
  · intro i h
    have hi : i < (advanceN (reset segs) segs.length).cursor := by omega
    exact (hinv.2 i h).mpr hi
  · unfold advance
    have : ¬ (advanceN (reset segs) segs.length).cursor <
        (advanceN (reset segs) segs.length).segments.length := by
      omega
    simp [this]
  · unfold rewind
    rfl

/-! ## Polyline codec lemmas and claim C8 -/

theorem unzigzag_zigzag (v : ℤ) : unzigzag (zigzag v) = v := by
  unfold zigzag unzigzag
  split <;> split <;> omega

theorem decode_encode_chunksAux (fuel z : ℕ) (hz : z ≤ fuel ∨ z < 32) (rest : List ℕ) :
    decodeNatChunks (encodeNatChunksAux fuel z ++ rest) = some (z, rest) := by
  induction fuel generalizing z with
  | zero =>
    have hz' : z < 32 := by omega
    show decodeNatChunks ((z + 63) :: rest) = some (z, rest)
    unfold decodeNatChunks
    rw [if_pos (by omega : z + 63 < 95)]
    simp
  | succ f ih =>
    show decodeNatChunks ((if z < 32 then [z + 63]
      else (z % 32 + 95) :: encodeNatChunksAux f (z / 32)) ++ rest) = some (z, rest)
    split
    · next h =>
      show decodeNatChunks ((z + 63) :: rest) = some (z, rest)
      unfold decodeNatChunks
      rw [if_pos (by omega : z + 63 < 95)]
      simp
    · next h =>
      have hdiv : z / 32 ≤ f ∨ z / 32 < 32 := by
        left
        have : z / 32 < z := Nat.div_lt_self (by omega) (by omega)
        omega
      show decodeNatChunks ((z % 32 + 95) :: (encodeNatChunksAux f (z / 32) ++ rest)) =
        some (z, rest)
      unfold decodeNatChunks
      rw [if_neg (by omega : ¬ z % 32 + 95 < 95)]
      rw [ih (z / 32) hdiv]
      simp only [Option.some.injEq, Prod.mk.injEq]
      refine ⟨by omega, trivial⟩

theorem decode_encode_chunks (z : ℕ) (rest : List ℕ) :
    decodeNatChunks (encodeNatChunks z ++ rest) = some (z, rest) :=
  decode_encode_chunksAux z z (by omega) rest

theorem encodeNatChunksAux_ne_nil (fuel z : ℕ) : encodeNatChunksAux fuel z ≠ [] := by
  cases fuel with
  | zero => simp [encodeNatChunksAux]
  | succ f =>
    unfold encodeNatChunksAux
    split <;> simp

theorem encodeNatChunksAux_bounds (fuel z : ℕ) (hz : z ≤ fuel ∨ z < 32) :
    ∀ c ∈ encodeNatChunksAux fuel z, 63 ≤ c ∧ c ≤ 126 := by
  induction fuel generalizing z with
  | zero =>
    have hz' : z < 32 := by omega
    intro c hc
    simp [encodeNatChunksAux] at hc
    omega
  | succ f ih =>
    intro c hc
    unfold encodeNatChunksAux at hc
    split at hc
    · next h => simp at hc; omega
    · next h =>
      simp at hc
      rcases hc with h1 | h2
      · have := Nat.mod_lt z (y := 32) (by omega)
        omega
      · have hdiv : z / 32 ≤ f ∨ z / 32 < 32 := by
          left
          have : z / 32 < z := Nat.div_lt_self (by omega) (by omega)
          omega
        exact ih (z / 32) hdiv c h2

theorem decode_encode_pairs (pts : List (ℤ × ℤ)) (prev : ℤ × ℤ) (fuel : ℕ)
    (hfuel : (encodePairsFrom prev pts).length ≤ fuel) :
    decodePairsFrom fuel prev (encodePairsFrom prev pts) = some pts := by
  induction pts generalizing prev fuel with
  | nil =>
    cases fuel <;> rfl
  | cons p rest ih =>
    obtain ⟨plat, plng⟩ := prev
    obtain ⟨lat, lng⟩ := p
    have h1 : encodePairsFrom (plat, plng) ((lat, lng) :: rest) =
        encodeNatChunks (zigzag (lat - plat)) ++
          (encodeNatChunks (zigzag (lng - plng)) ++ encodePairsFrom (lat, lng) rest) := by
      simp [encodePairsFrom]
    rw [h1] at hfuel ⊢
    have hne := encodeNatChunksAux_ne_nil (zigzag (lat - plat)) (zigzag (lat - plat))
    have hlen1 : 1 ≤ (encodeNatChunks (zigzag (lat - plat))).length := by
      cases h : encodeNatChunks (zigzag (lat - plat)) with
      | nil => exact absurd h hne
      | cons a l => simp
    simp only [List.length_append] at hfuel
    cases fuel with
    | zero => omega
    | succ f =>
      cases hx : encodeNatChunks (zigzag (lat - plat)) ++
          (encodeNatChunks (zigzag (lng - plng)) ++ encodePairsFrom (lat, lng) rest) with
      | nil =>
        rw [List.append_eq_nil] at hx
        exact absurd hx.1 hne
      | cons c cs =>
        have hdec1 : decodeNatChunks (c :: cs) =
            some (zigzag (lat - plat),
              encodeNatChunks (zigzag (lng - plng)) ++ encodePairsFrom (lat, lng) rest) := by
          rw [← hx]
          exact decode_encode_chunks _ _
        simp only [decodePairsFrom, hdec1, decode_encode_chunks, unzigzag_zigzag,
          add_sub_cancel]
        rw [ih (lat, lng) f (by omega)]

theorem char_toNat_ofNat (c : ℕ) (h : c < 55296) : (Char.ofNat c).toNat = c := by
  unfold Char.ofNat
  rw [dif_pos (Or.inl h)]
  rfl

theorem encodePairsFrom_bounds (prev : ℤ × ℤ) (pts : List (ℤ × ℤ)) :
    ∀ c ∈ encodePairsFrom prev pts, 63 ≤ c ∧ c ≤ 126 := by
  induction pts generalizing prev with
  | nil => intro c hc; simp [encodePairsFrom] at hc
  | cons p rest ih =>
    obtain ⟨plat, plng⟩ := prev
    obtain ⟨lat, lng⟩ := p
    intro c hc
    simp only [encodePairsFrom, List.append_assoc, List.mem_append] at hc
    rcases hc with h1 | h2 | h3
    · exact encodeNatChunksAux_bounds _ _ (by omega) c h1
    · exact encodeNatChunksAux_bounds _ _ (by omega) c h2
    · exact ih (lat, lng) c h3

theorem encodeE5_bounds (pts : List (ℤ × ℤ)) :
    ∀ c ∈ encodeE5 pts, 63 ≤ c ∧ c ≤ 126 :=
  encodePairsFrom_bounds (0, 0) pts

theorem polyline_roundtrip_e5 (pts : List (ℤ × ℤ)) :
    polylineDecode (polylineEncode pts) = some pts := by
  unfold polylineDecode polylineEncode
  have h1 : (String.mk ((encodeE5 pts).map Char.ofNat)).toList =
      (encodeE5 pts).map Char.ofNat := rfl
  rw [h1, List.map_map]
  have h2 : ∀ c ∈ encodeE5 pts, (Char.toNat ∘ Char.ofNat) c = id c := by
    intro c hc
    have := encodeE5_bounds pts c hc
    exact char_toNat_ofNat c (by omega)
  rw [List.map_congr_left h2, List.map_id]
  exact decode_encode_pairs pts (0, 0) _ le_rfl

theorem fromE5_toE5_close (q : ℚ) : |fromE5 (toE5 q) - q| < 1 / 100000 := by
  unfold fromE5 toE5
  have h := abs_sub_round (q * 100000)
  rw [abs_sub_comm] at h
  have heq : ((round (q * 100000) : ℤ) : ℚ) / 100000 - q =
      (((round (q * 100000) : ℤ) : ℚ) - q * 100000) / 100000 := by
    field_simp
    ring
  rw [heq, abs_div]
  have h100 : |(100000 : ℚ)| = 100000 := by norm_num
  rw [h100]
  have h2 : |((round (q * 100000) : ℤ) : ℚ) - q * 100000| / 100000 ≤ (1 / 2) / 100000 :=
    (div_le_div_iff_of_pos_right (by norm_num)).mpr h
  linarith

theorem toE5_map_example :
    [((38.5 : ℚ), (-120.2 : ℚ)), (40.7, -120.95), (43.252, -126.453)].map
      (fun p => (toE5 p.1, toE5 p.2)) =
      [(3850000, -12020000), (4070000, -12095000), (4325200, -12645300)] := by
  simp only [List.map_cons, List.map_nil, toE5]
  norm_num [round_eq]

set_option maxHeartbeats 1000000 in
theorem polylineEncode_example :
    polylineEncode [(3850000, -12020000), (4070000, -12095000), (4325200, -12645300)] =
      "_p~iF~ps|U_ulLnnqC_mqNvxq`@" := rfl

set_option maxHeartbeats 1000000 in
theorem polylineDecode_example :
    polylineDecode "_p~iF~ps|U_ulLnnqC_mqNvxq`@" =
      some [(3850000, -12020000), (4070000, -12095000), (4325200, -12645300)] := rfl

theorem decodeCoordinates_encodeCoordinates (pts : List (ℚ × ℚ)) :
    decodeCoordinates (encodeCoordinates pts) =
      some (pts.map (fun p => (fromE5 (toE5 p.1), fromE5 (toE5 p.2)))) := by
  unfold decodeCoordinates encodeCoordinates
  rw [polyline_roundtrip_e5]
  simp only [Option.map_some', List.map_map]
  rfl

theorem encodeCoordinates_example :
    encodeCoordinates [(38.5, -120.2), (40.7, -120.95), (43.252, -126.453)] =
      "_p~iF~ps|U_ulLnnqC_mqNvxq`@" := by
  unfold encodeCoordinates
  rw [toE5_map_example]
  exact polylineEncode_example

theorem decodeCoordinates_example :
    decodeCoordinates "_p~iF~ps|U_ulLnnqC_mqNvxq`@" =
      some [(38.5, -120.2), (40.7, -120.95), (43.252, -126.453)] := by
  unfold decodeCoordinates
  rw [polylineDecode_example]
  simp only [Option.map_some', List.map_cons, List.map_nil, fromE5]
  norm_num

theorem decode_encode_pointwise (pts : List (ℚ × ℚ)) :
    ∃ pts', decodeCoordinates (encodeCoordinates pts) = some pts' ∧
      pts'.length = pts.length ∧
      ∀ i (h : i < pts.length) (h' : i < pts'.length),
        |(pts'.get ⟨i, h'⟩).1 - (pts.get ⟨i, h⟩).1| < 1 / 100000 ∧
        |(pts'.get ⟨i, h'⟩).2 - (pts.get ⟨i, h⟩).2| < 1 / 100000 := by
  refine ⟨pts.map (fun p => (fromE5 (toE5 p.1), fromE5 (toE5 p.2))), ?_, by simp, ?_⟩
  · exact decodeCoordinates_encodeCoordinates pts
  intro i h h'
  simp only [List.get_map]
  exact ⟨fromE5_toE5_close _, fromE5_toE5_close _⟩

/-- C8: encoding any coordinate sequence with the standard polyline
algorithm (5-bit chunks, zigzag delta encoding of E5-scaled lat/lng
deltas) and then decoding reproduces every point within 1e-5 degrees; in
particular the three-point example encodes to the canonical string and
decodes back to exactly those three points. -/
theorem polyline_roundtrip_within_tolerance (pts : List (ℚ × ℚ)) :
    (∃ pts', decodeCoordinates (encodeCoordinates pts) = some pts' ∧
      pts'.length = pts.length ∧
      ∀ i (h : i < pts.length) (h' : i < pts'.length),
        |(pts'.get ⟨i, h'⟩).1 - (pts.get ⟨i, h⟩).1| < 1 / 100000 ∧
        |(pts'.get ⟨i, h'⟩).2 - (pts.get ⟨i, h⟩).2| < 1 / 100000) ∧
    encodeCoordinates [(38.5, -120.2), (40.7, -120.95), (43.252, -126.453)] =
      "_p~iF~ps|U_ulLnnqC_mqNvxq`@" ∧
    decodeCoordinates "_p~iF~ps|U_ulLnnqC_mqNvxq`@" =
      some [(38.5, -120.2), (40.7, -120.95), (43.252, -126.453)] :=
  ⟨decode_encode_pointwise pts, encodeCoordinates_example, decodeCoordinates_example⟩

/-! ## Selection layer: claim C10 -/

theorem toggle_names_nodup (school : School) (sel : List School)
    (h : (sel.map School.name).Nodup) :
    ((toggleSchoolSelection school sel).map School.name).Nodup := by
  unfold toggleSchoolSelection
  split
  · exact List.Nodup.sublist (List.Sublist.map School.name (List.filter_sublist sel)) h
  · next hany =>
    rw [List.map_append]
    rw [List.nodup_append]
    refine ⟨h, by simp, ?_⟩
    intro a ha
    simp only [List.map_cons, List.map_nil, List.mem_singleton]
    intro heq
    subst heq
    rw [List.mem_map] at ha
    obtain ⟨x, hx, hxa⟩ := ha
    apply hany
    rw [List.any_eq_true]
    exact ⟨x, hx, by simp [hxa]⟩

theorem selectHome_names_nodup (school : School) (sel : List School)
    (h : (sel.map School.name).Nodup) :
    ((selectHomeLocation school sel).map School.name).Nodup := by
  unfold selectHomeLocation
  split
  · exact h
  · next hany =>
    rw [List.map_append]
    rw [List.nodup_append]
    refine ⟨h, by simp, ?_⟩
    intro a ha
    simp only [List.map_cons, List.map_nil, List.mem_singleton]
    intro heq
    subst heq
    rw [List.mem_map] at ha
    obtain ⟨x, hx, hxa⟩ := ha
    apply hany
    rw [List.any_eq_true]
    exact ⟨x, hx, by simp [hxa]⟩

theorem applySelOps_names_nodup (ops : List SelOp) (sel : List School)
    (h : (sel.map School.name).Nodup) :
    ((applySelOps ops sel).map School.name).Nodup := by
  induction ops generalizing sel with
  | nil => exact h
  | cons op ops ih =>
    cases op with
    | toggle s => exact ih _ (toggle_names_nodup s sel h)
    | home s => exact ih _ (selectHome_names_nodup s sel h)

/-- C10: starting from the empty selection, no sequence of
`toggleSchoolSelection` / `selectHomeLocation` calls ever produces two
entries with the same name in `selectedSchools`; and toggling a school that
is already selected removes it (its name is gone afterwards) rather than
adding a duplicate. -/
theorem selection_never_duplicates (ops : List SelOp) :
    ((applySelOps ops []).map School.name).Nodup ∧
    ∀ school sel, sel.any (fun s => s.name == school.name) = true →
      school.name ∉ (toggleSchoolSelection school sel).map School.name := by
  constructor
  · exact applySelOps_names_nodup ops [] (by simp)
  · intro school sel hmem
    unfold toggleSchoolSelection
    rw [if_pos hmem]
    rw [List.mem_map]
    rintro ⟨x, hx, hxa⟩
    rw [List.mem_filter] at hx
    have := hx.2
    simp only [bne_iff_ne, ne_eq] at this
    exact this hxa

/-! ## Request construction: claims C3, C4 -/

/-- C3 (amended): `buildRequest` fails with the missing-home error exactly
when the home is null; given a home it fails with the insufficient-stops
error exactly when the whole `selectedSchools` list — including the home
itself, which `selectHomeLocation` inserts into it — has fewer than two
entries (the source counts the home, not the stops besides it); and it
succeeds exactly when at least two selected schools have valid (nonzero)
coordinates. -/
theorem buildRequest_some_eq (home : School) (sel : List School) :
    buildRequest (some home) sel =
      if sel.length < 2 then .error .insufficientStops
      else if (sel.filter validCoords).length < 2 then .error .notEnoughValidStops
      else .ok ⟨schoolLatLng home, schoolLatLng home,
        (sel.filter validCoords).map schoolLatLng⟩ := by
  simp only [buildRequest, List.length_map]

theorem buildRequest_failure_modes (home : School) (sel : List School) :
    buildRequest none sel = .error .missingHome ∧
    buildRequest (some home) sel ≠ .error .missingHome ∧
    (buildRequest (some home) sel = .error .insufficientStops ↔ sel.length < 2) ∧
    ((∃ r, buildRequest (some home) sel = .ok r) ↔
      2 ≤ (sel.filter validCoords).length) := by
  have hle : (sel.filter validCoords).length ≤ sel.length := List.length_filter_le _ _
  refine ⟨rfl, ?_, ?_, ?_⟩
  · rw [buildRequest_some_eq]
    split_ifs <;> simp
  · rw [buildRequest_some_eq]
    constructor
    · intro h
      split_ifs at h with h1 h2
      · exact h1
      · exact absurd h (by simp)
    · intro h1
      rw [if_pos h1]
  · constructor
    · rintro ⟨r, hr⟩
      rw [buildRequest_some_eq] at hr
      split_ifs at hr with h1 h2
      omega
    · intro h2
      refine ⟨⟨schoolLatLng home, schoolLatLng home,
        (sel.filter validCoords).map schoolLatLng⟩, ?_⟩
      rw [buildRequest_some_eq, if_neg (by omega), if_neg (by omega)]

/-- C3 counterexample: with the home itself among the selected stops and
exactly one other school, there are fewer than two stops besides the home
(one), so the claim demands the insufficient-stops failure — but the
source counts the whole list (length two) and the build succeeds. -/
theorem build_insufficient_stops_cx :
    (([⟨"Home", 1, 1⟩, ⟨"A", 2, 2⟩] : List School).filter
      (fun s => s.name != "Home")).length < 2 ∧
    buildRequest (some ⟨"Home", 1, 1⟩) [⟨"Home", 1, 1⟩, ⟨"A", 2, 2⟩] =
      .ok ⟨⟨1, 1⟩, ⟨1, 1⟩, [⟨1, 1⟩, ⟨2, 2⟩]⟩ := by
  constructor
  · decide
  · rfl

/-- C4 (amended): for a non-null home and at least two selected schools all
with valid (nonzero) coordinates, the built request is a round trip —
origin and destination are both the home's coordinate — and the
intermediates are exactly all the selected schools' coordinates in
insertion order, with no reordering and no deduplication; the home is NOT
excluded from the intermediates (the Google variant never filters the
selection against the home's id). -/
theorem buildRequest_round_trip (home : School) (sel : List School)
    (hval : ∀ s ∈ sel, validCoords s = true) (hlen : 2 ≤ sel.length) :
    buildRequest (some home) sel =
      .ok ⟨schoolLatLng home, schoolLatLng home, sel.map schoolLatLng⟩ := by
  rw [buildRequest_some_eq]
  rw [List.filter_eq_self.mpr hval]
  rw [if_neg (by omega), if_neg (by omega)]

/-- Witness for C4's amended theorem at a concrete home and two schools. -/
theorem buildRequest_round_trip_witness :
    buildRequest (some ⟨"H", 1, 1⟩) [⟨"A", 2, 2⟩, ⟨"B", 3, 3⟩] =
      .ok ⟨⟨1, 1⟩, ⟨1, 1⟩, [⟨2, 2⟩, ⟨3, 3⟩]⟩ :=
  buildRequest_round_trip ⟨"H", 1, 1⟩ [⟨"A", 2, 2⟩, ⟨"B", 3, 3⟩] (by decide) (by decide)

/-- C4 counterexample: the home is among the selected stops; the claim
says the intermediates are the stops whose name differs from the home's
(two entries), but the built request also includes the home's coordinate —
three intermediates, the home's first. -/
theorem build_home_not_excluded_cx :
    buildRequest (some ⟨"H", 1, 1⟩) [⟨"H", 1, 1⟩, ⟨"A", 2, 2⟩, ⟨"B", 3, 3⟩] =
      .ok ⟨⟨1, 1⟩, ⟨1, 1⟩, [⟨1, 1⟩, ⟨2, 2⟩, ⟨3, 3⟩]⟩ ∧
    (([⟨"H", 1, 1⟩, ⟨"A", 2, 2⟩, ⟨"B", 3, 3⟩] : List School).filter
        (fun s => s.name != "H")).map schoolLatLng = [⟨2, 2⟩, ⟨3, 3⟩] ∧
    ([⟨1, 1⟩, ⟨2, 2⟩, ⟨3, 3⟩] : List LatLng) ≠ [⟨2, 2⟩, ⟨3, 3⟩] := by
  refine ⟨?_, ?_, ?_⟩
  · rfl
  · rfl
  · decide


/-! ## Response normalization: claims C5, C6, C7 -/

theorem fromE5_zero : fromE5 0 = 0 := by
  norm_num [fromE5]

theorem decodeCoordinates_qq : decodeCoordinates "??" = some [(0, 0)] := by
  unfold decodeCoordinates
  rw [show polylineDecode "??" = some [((0 : ℤ), (0 : ℤ))] from rfl]
  simp [fromE5_zero]

theorem decodeCoordinates_qqqq :
    decodeCoordinates "????" = some [(0, 0), (0, 0)] := by
  unfold decodeCoordinates
  rw [show polylineDecode "????" =
    some [((0 : ℤ), (0 : ℤ)), ((0 : ℤ), (0 : ℤ))] from rfl]
  simp [fromE5_zero]

theorem decodeCoordinates_nil : decodeCoordinates "" = some [] := rfl

/-- C5 (amended): on a response whose first route-level polyline decodes to
a non-empty path, the source produces a single drawn path — the decoded
route-level polyline — together with the route total `distanceMeters`
converted to kilometres and the per-step instruction texts flattened in
leg/step order. It does not produce one segment per leg, and the per-step
encoded polylines are never decoded. -/
theorem normalizeResponse_single_path (route : GRoute) (rest : List GRoute)
    (latLngs : List (ℚ × ℚ))
    (hdec : decodeCoordinates route.encodedPolyline = some latLngs)
    (hne : latLngs ≠ []) :
    normalizeResponse (route :: rest) =
      .ok ⟨latLngs, route.distanceMeters / 1000,
        (route.legs.flatMap GLeg.steps).map GStep.instructions⟩ := by
  simp only [normalizeResponse, hdec]
  rw [if_neg (by simpa [List.isEmpty_iff] using hne)]

/-- Witness for C5's amended theorem: a concrete one-route response whose
polyline decodes to the single point `(0, 0)`. -/
theorem normalizeResponse_single_path_witness :
    normalizeResponse [⟨"??", 2000, []⟩] =
      .ok ⟨[(0, 0)], 2000 / 1000, []⟩ :=
  normalizeResponse_single_path ⟨"??", 2000, []⟩ [] [(0, 0)]
    decodeCoordinates_qq (by simp)

/-- C5 counterexample: a Shape-A response with two legs whose steps carry
their own encoded polylines. The claim demands two segments, the first
with path `decode("????") ++ decode("??") = [(0,0), (0,0), (0,0)]`
(three points); the source instead produces a single result whose path is
the decoded route-level polyline `decode("??") = [(0,0)]` (one point), and
uses the steps only for their instruction text. -/
theorem normalize_not_per_leg_cx :
    normalizeResponse [⟨"??", 5000,
        [⟨[⟨"turn left", "????"⟩, ⟨"turn right", "??"⟩]⟩, ⟨[⟨"arrive", "??"⟩]⟩]⟩] =
      .ok ⟨[(0, 0)], 5000 / 1000, ["turn left", "turn right", "arrive"]⟩ ∧
    ([⟨[⟨"turn left", "????"⟩, ⟨"turn right", "??"⟩]⟩,
      ⟨[⟨"arrive", "??"⟩]⟩] : List GLeg).length = 2 ∧
    decodeCoordinates "????" = some [(0, 0), (0, 0)] ∧
    decodeCoordinates "??" = some [(0, 0)] ∧
    ([((0 : ℚ), (0 : ℚ))] : List (ℚ × ℚ)) ≠ [(0, 0), (0, 0), (0, 0)] := by
  refine ⟨?_, rfl, decodeCoordinates_qqqq, decodeCoordinates_qq, by decide⟩
  simp only [normalizeResponse, decodeCoordinates_qq]
  rw [if_neg (by simp)]
  rfl

/-- C6 (amended): the route-list check lives in the proxy (`"No routes
found"` on an empty routes list) and in the client (`emptyRoutes` when
`routes[0]` is undefined); given a decodable first route, the geometry
error is raised exactly when the decoded route-level path has ZERO points
(not fewer than two, and not per leg), and every response with a non-empty
decoded path succeeds. -/
theorem normalize_error_conditions (route : GRoute) (rest : List GRoute)
    (latLngs : List (ℚ × ℚ))
    (hdec : decodeCoordinates route.encodedPolyline = some latLngs) :
    normalizeResponse [] = .error .emptyRoutes ∧
    serverRouteCheck [] = .error "No routes found" ∧
    (normalizeResponse (route :: rest) = .error .emptyGeometry ↔ latLngs = []) ∧
    (latLngs ≠ [] → ∃ out, normalizeResponse (route :: rest) = .ok out) := by
  refine ⟨rfl, rfl, ?_, ?_⟩
  · simp only [normalizeResponse, hdec]
    by_cases he : latLngs.isEmpty
    · rw [if_pos he]
      rw [List.isEmpty_iff] at he
      simp [he]
    · rw [if_neg he]
      rw [List.isEmpty_iff] at he
      simp [he]
  · intro hne
    refine ⟨⟨latLngs, route.distanceMeters / 1000,
      (route.legs.flatMap GLeg.steps).map GStep.instructions⟩, ?_⟩
    simp only [normalizeResponse, hdec]
    rw [if_neg (by simpa [List.isEmpty_iff] using hne)]

/-- Witness for C6's amended theorem at a concrete one-route response. -/
theorem normalize_error_conditions_witness :
    normalizeResponse [] = .error .emptyRoutes ∧
    serverRouteCheck [] = .error "No routes found" ∧
    (normalizeResponse [⟨"??", 1000, []⟩] = .error .emptyGeometry ↔
      ([((0 : ℚ), (0 : ℚ))] : List (ℚ × ℚ)) = []) ∧
    (([((0 : ℚ), (0 : ℚ))] : List (ℚ × ℚ)) ≠ [] →
      ∃ out, normalizeResponse [⟨"??", 1000, []⟩] = .ok out) :=
  normalize_error_conditions ⟨"??", 1000, []⟩ [] [(0, 0)] decodeCoordinates_qq

/-- C6 counterexample: a route whose polyline decodes to exactly ONE point
(fewer than two). The claim demands the malformed-geometry failure; the
source checks only for zero points (`latLngs.length === 0`) and accepts
the one-point path. -/
theorem one_point_path_not_rejected_cx :
    normalizeResponse [⟨"??", 1000, []⟩] =
      .ok ⟨[(0, 0)], 1000 / 1000, []⟩ ∧
    ([((0 : ℚ), (0 : ℚ))] : List (ℚ × ℚ)).length < 2 := by
  constructor
  · simp only [normalizeResponse, decodeCoordinates_qq]
    rw [if_neg (by simp)]
    rfl
  · decide

/-- C7 (amended): on a GeoJSON feature with at least one provider segment,
the openrouteservice variant produces one route whose path is the flat
coordinate list (each `[lng, lat]` pair flipped to `(lat, lng)`) and whose
displayed total is the FIRST provider segment distance divided by 1000
(kilometres) — not the provided route total `summary.distance`, which the
source never reads. -/
theorem fetchRoute_first_segment (f : ORSFeature) (rest : List ORSFeature)
    (d : ℚ) (ds : List ℚ) (hseg : f.segmentDistances = d :: ds) :
    fetchRoute (f :: rest) =
      some ⟨f.coordinates.map (fun p => (p.2, p.1)), d / 1000⟩ := by
  simp only [fetchRoute, hseg]

/-- Witness for C7's amended theorem at a concrete one-segment feature. -/
theorem fetchRoute_first_segment_witness :
    fetchRoute [⟨[(1, 2)], 5000, [5000]⟩] =
      some ⟨[(2, 1)], 5000 / 1000⟩ :=
  fetchRoute_first_segment ⟨[(1, 2)], 5000, [5000]⟩ [] 5000 [] rfl

/-- C7 counterexample: a feature carrying the provided total
`summary.distance = 3000` (metres) and two provider segments of 1000 and
2000 metres. The claim says the produced distance is the provided total
(3000); the source instead shows `segments[0].distance / 1000 = 1` — the
first segment only, converted to kilometres. -/
theorem fetchRoute_ignores_total_cx :
    fetchRoute [⟨[(0, 0), (1, 1)], 3000, [1000, 2000]⟩] =
      some ⟨[(0, 0), (1, 1)], 1000 / 1000⟩ ∧
    (⟨[(0, 0), (1, 1)], 3000, [1000, 2000]⟩ : ORSFeature).summaryDistance = 3000 ∧
    (1000 : ℚ) / 1000 ≠ 3000 := by
  refine ⟨?_, rfl, by norm_num⟩
  simp only [fetchRoute]
  rfl


/-! ## Failure atomicity of route calculation: claim C9 -/

theorem calculateRoute_success_eq (st : UIState) (h : School) (sel : List School)
    (route : GRoute) (rrest : List GRoute)
    (h1 : ¬ sel.length < 2)
    (h2 : ¬ ((sel.filter validCoords).map schoolLatLng).length < 2) :
    calculateRoute st (some h) sel (.success (route :: rrest)) =
      match decodeCoordinates route.encodedPolyline with
      | none => (st, some .malformedPolyline)
      | some latLngs =>
        if latLngs.isEmpty then
          ({ totalDistance := some (route.distanceMeters / 1000),
             directions := (route.legs.flatMap GLeg.steps).map GStep.instructions,
             routeWaypoints := none }, some .emptyGeometry)
        else
          ({ totalDistance := some (route.distanceMeters / 1000),
             directions := (route.legs.flatMap GLeg.steps).map GStep.instructions,
             routeWaypoints := some latLngs }, none) := by
  simp only [calculateRoute]
  rw [if_neg h1, if_neg h2]

/-- C9 (amended): every failure of a calculation attempt EXCEPT the
empty-geometry failure leaves the previous component state entirely
untouched (the guards, an HTTP failure, an API error and an empty routes
list all return before any setter runs); on success all three state fields
are replaced with the values derived from the response — the route total
converted to kilometres, the per-step instructions flattened in leg/step
order, and the decoded non-empty route-level path; but the empty-geometry failure
is raised only after `totalDistance` and `directions` have been
overwritten and the previous route control removed, so it leaves a partial
update behind (characterized in the third conjunct). -/
theorem calculateRoute_state_effects (st : UIState) (home : Option School)
    (sel : List School) (out : FetchOutcome) :
    (∀ e, (calculateRoute st home sel out).2 = some e → e ≠ CalcError.emptyGeometry →
      (calculateRoute st home sel out).1 = st) ∧
    ((calculateRoute st home sel out).2 = none →
      ∃ route rrest latLngs, out = .success (route :: rrest) ∧
        decodeCoordinates route.encodedPolyline = some latLngs ∧ latLngs ≠ [] ∧
        (calculateRoute st home sel out).1 =
          ⟨some (route.distanceMeters / 1000),
            (route.legs.flatMap GLeg.steps).map GStep.instructions, some latLngs⟩) ∧
    (∀ route rrest, out = .success (route :: rrest) →
      (calculateRoute st home sel out).2 = some CalcError.emptyGeometry →
      (calculateRoute st home sel out).1 =
        ⟨some (route.distanceMeters / 1000),
          (route.legs.flatMap GLeg.steps).map GStep.instructions, none⟩) := by
  cases home with
  | none =>
    refine ⟨fun e he hne => rfl, by simp [calculateRoute], ?_⟩
    intro route rrest hout hsome
    simp [calculateRoute] at hsome
  | some h =>
    by_cases h1 : sel.length < 2
    · have heq : calculateRoute st (some h) sel out = (st, some .insufficientStops) := by
        simp only [calculateRoute]
        rw [if_pos h1]
      rw [heq]
      refine ⟨fun e he hne => rfl, by simp, ?_⟩
      intro route rrest hout hsome
      simp at hsome
    · by_cases h2 : ((sel.filter validCoords).map schoolLatLng).length < 2
      · have heq : calculateRoute st (some h) sel out = (st, some .notEnoughValidStops) := by
          simp only [calculateRoute]
          rw [if_neg h1, if_pos h2]
        rw [heq]
        refine ⟨fun e he hne => rfl, by simp, ?_⟩
        intro route rrest hout hsome
        simp at hsome
      · cases out with
        | httpError =>
          have heq : calculateRoute st (some h) sel .httpError = (st, some .requestFailed) := by
            simp only [calculateRoute]
            rw [if_neg h1, if_neg h2]
          rw [heq]
          refine ⟨fun e he hne => rfl, by simp, ?_⟩
          intro route rrest hout hsome
          simp at hout
        | apiError m =>
          have heq : calculateRoute st (some h) sel (.apiError m) =
              (st, some (.apiError m)) := by
            simp only [calculateRoute]
            rw [if_neg h1, if_neg h2]
          rw [heq]
          refine ⟨fun e he hne => rfl, by simp, ?_⟩
          intro route rrest hout hsome
          simp at hout
        | success routes =>
          cases routes with
          | nil =>
            have heq : calculateRoute st (some h) sel (.success []) =
                (st, some .emptyRoutes) := by
              simp only [calculateRoute]
              rw [if_neg h1, if_neg h2]
            rw [heq]
            refine ⟨fun e he hne => rfl, by simp, ?_⟩
            intro route rrest hout hsome
            simp at hout
          | cons route rrest =>
            rw [calculateRoute_success_eq st h sel route rrest h1 h2]
            cases hdec : decodeCoordinates route.encodedPolyline with
            | none =>
              dsimp only
              refine ⟨fun e he hne => rfl, by simp, ?_⟩
              intro route2 rrest2 hout hsome
              simp only [FetchOutcome.success.injEq, List.cons.injEq] at hout
              simp at hsome
            | some latLngs =>
              dsimp only
              by_cases hemp : latLngs.isEmpty
              · rw [if_pos hemp]
                refine ⟨?_, by simp, ?_⟩
                · intro e he hne
                  simp only [Option.some.injEq] at he
                  exact absurd he.symm hne
                · intro route2 rrest2 hout hsome
                  simp only [FetchOutcome.success.injEq, List.cons.injEq] at hout
                  obtain ⟨hr, _⟩ := hout
                  subst hr
                  rfl
              · rw [if_neg hemp]
                refine ⟨?_, ?_, ?_⟩
                · intro e he hne
                  simp at he
                · intro _
                  refine ⟨route, rrest, latLngs, rfl, hdec, ?_, rfl⟩
                  rw [List.isEmpty_iff] at hemp
                  exact hemp
                · intro route2 rrest2 hout hsome
                  simp at hsome

/-- C9 counterexample: a calculation that fails (empty-geometry error,
surfaced as the "Error calculating route" alert), yet the previous state —
total distance 7, one direction line, a displayed route — has been
clobbered: the new total distance and the new (empty) directions were set
and the old route control removed before the failing check ran. -/
theorem partial_update_on_failure_cx :
    calculateRoute ⟨some 7, ["old"], some [(9, 9)]⟩ (some ⟨"H", 1, 1⟩)
        [⟨"A", 2, 2⟩, ⟨"B", 3, 3⟩] (.success [⟨"", 1000, []⟩]) =
      (⟨some (1000 / 1000), [], none⟩, some .emptyGeometry) ∧
    (⟨some (1000 / 1000), [], none⟩ : UIState) ≠ ⟨some 7, ["old"], some [(9, 9)]⟩ := by
  constructor
  · have h1 : ¬ ([(⟨"A", 2, 2⟩ : School), ⟨"B", 3, 3⟩] : List School).length < 2 := by
      decide
    have h2 : ¬ ((([(⟨"A", 2, 2⟩ : School), ⟨"B", 3, 3⟩] : List School).filter
        validCoords).map schoolLatLng).length < 2 := by
      decide
    rw [calculateRoute_success_eq _ _ _ _ _ h1 h2]
    rw [decodeCoordinates_nil]
    rfl
  · simp

end FTA
